import Mathlib

/-!
Verification of the Query Authorization Gateway of the Esyasoft chatbot
repository.  The embedding follows the source files

* `forecast_chatbot_nl2sql_API_with_copilot_12-30/db.py`
  (`_is_safe_statement`, `_extract_table_names`, `secure_run_query`,
  `run_query`),
* `forecast_chatbot_nl2sql_API_with_copilot_12-30/security.py`
  (`ROLE_TABLES`, `allowed_tables_for_role`),
* `forecast_chatbot_nl2sql_API_user_19-12/chatbot_pipeline.py`
  (`parse_datetime_safe`, `render_graph_png`).

SQL text is modelled as `List Char`; Python string primitives
(`.lower()`, `.strip()`, `in`, `.count`, slicing) are embedded as
executable functions over character lists.  Text is treated as ASCII:
Python's `\w` character class is modelled as `[A-Za-z0-9_]` and
`str.lower` as the ASCII lowercasing, which is exact on the SQL inputs
the gateway handles.  The SQLite engine and the matplotlib/strptime
collaborators are external to the repository and are modelled as
explicit parameters, with their spec-level guarantees stated as
hypotheses (see `Db`).
-/

namespace Gateway

/-- SQL text: a Python `str`, modelled as a list of characters. -/
abbrev Str := List Char

/-- Python regex word character `\w` restricted to ASCII: `[A-Za-z0-9_]`. -/
def isWordChar (c : Char) : Bool :=
  decide (('a' ≤ c ∧ c ≤ 'z') ∨ ('A' ≤ c ∧ c ≤ 'Z') ∨ ('0' ≤ c ∧ c ≤ '9') ∨ c = '_')

/-- First character of a Python identifier: `[A-Za-z_]`. -/
def isIdentStart (c : Char) : Bool :=
  decide (('a' ≤ c ∧ c ≤ 'z') ∨ ('A' ≤ c ∧ c ≤ 'Z') ∨ c = '_')

/-- Python regex whitespace `\s` restricted to ASCII: space, tab, LF, VT, FF, CR. -/
def isPySpace (c : Char) : Bool :=
  decide (c = ' ' ∨ c = '\t' ∨ c = '\n' ∨ c = '\x0b' ∨ c = '\x0c' ∨ c = '\r')

/-- ASCII uppercase letter test, stated on code points. -/
def isUpperA (c : Char) : Bool := decide (65 ≤ c.toNat ∧ c.toNat ≤ 90)

/-- Python `str.lower` on one ASCII character. -/
def lowerChar (c : Char) : Char :=
  if 65 ≤ c.toNat ∧ c.toNat ≤ 90 then Char.ofNat (c.toNat + 32) else c

/-- Python `str.lower`. -/
def lowerStr (s : Str) : Str := s.map lowerChar

/-- Python substring test `pat in s`. -/
def containsSub (pat : Str) : Str → Bool
  | [] => pat.isEmpty
  | c :: rest => pat.isPrefixOf (c :: rest) || containsSub pat rest

/-- Python `s.count(";")`: number of `';'` characters in the text. -/
def countSemi (s : Str) : Nat := s.count ';'

/-- Python `str.strip()`: remove leading and trailing whitespace. -/
def pyStrip (s : Str) : Str :=
  ((s.dropWhile isPySpace).reverse.dropWhile isPySpace).reverse

/-- The denylist of `_is_safe_statement` (db.py line 67), verbatim:
DML/DDL keywords each with a trailing space, plus `vacuum`, `pragma`,
the comment markers and the SQLite catalog table. -/
def forbiddenList : List Str :=
  [("drop ").data, ("delete ").data, ("update ").data, ("insert ").data,
   ("alter ").data, ("attach ").data, ("detach ").data, ("vacuum").data,
   ("pragma").data, ("--").data, ("/*").data, ("sqlite_master").data]

/-- db.py `_is_safe_statement` (lines 64-74): reject when the text holds
more than one `';'`, then reject when the lowercased text contains any
denylisted substring. -/
def _is_safe_statement (sql : Str) : Bool :=
  if countSemi sql > 1 then false
  else if forbiddenList.any (fun f => containsSub f (lowerStr sql)) then false
  else true

/-- Outcome of the statement validator, refining the boolean
`_is_safe_statement` by which of its two checks fires first (the
multi-statement check on line 69 precedes the keyword loop on line 70). -/
inductive ValidateResult where
  | ok : ValidateResult
  | multiStatementReject : ValidateResult
  | forbiddenKeywordReject : ValidateResult
deriving DecidableEq

/-- The validator with its reject kind: the control flow of
`_is_safe_statement`, keeping which check rejected. -/
def validate (sql : Str) : ValidateResult :=
  if countSemi sql > 1 then ValidateResult.multiStatementReject
  else if forbiddenList.any (fun f => containsSub f (lowerStr sql)) then
    ValidateResult.forbiddenKeywordReject
  else ValidateResult.ok

/-- The schema-known table names of `_extract_table_names` (db.py line 56). -/
def knownTables : List Str :=
  [("meter_table").data, ("customer_table").data, ("revenue_data").data]

/-- Case-insensitive prefix test: does `s` start with the (lowercase)
pattern `pat`, ignoring case? -/
def ciPrefix (pat s : Str) : Bool := decide (lowerStr (s.take pat.length) = pat)

/-- Greedy match of `[A-Za-z_][A-Za-z0-9_]*` at the head of `s`,
returning the identifier and the rest of the text. -/
def matchIdent : Str → Option (Str × Str)
  | [] => none
  | c :: cs =>
      if isIdentStart c then some (c :: cs.takeWhile isWordChar, cs.dropWhile isWordChar)
      else none

/-- Match `\s+` followed by an identifier (the part of the pass-1 regex
after the `from`/`join` keyword). -/
def matchAfterKw (s : Str) : Option (Str × Str) :=
  if (s.takeWhile isPySpace).isEmpty then none
  else matchIdent (s.dropWhile isPySpace)

/-- Try the pass-1 regex `(?:from|join)\s+([A-Za-z_][A-Za-z0-9_]*)` at the
head of `s` (case-insensitively), returning the captured identifier and
the text after the whole match. -/
def tryMatchFJ (s : Str) : Option (Str × Str) :=
  if ciPrefix (("from").data) s then matchAfterKw (s.drop 4)
  else if ciPrefix (("join").data) s then matchAfterKw (s.drop 4)
  else none

/-- `re.finditer` scan for pass 1 of `_extract_table_names` (db.py line
52): left-to-right, non-overlapping matches of
`\b(?:from|join)\s+([A-Za-z_][A-Za-z0-9_]*)`, each captured identifier
lowercased.  `prevWord` tracks whether the previous character is a word
character (the `\b` assertion); scanning resumes after each match.  The
fuel argument is the remaining text length, so it never runs out. -/
def scanFJ : Nat → Bool → Str → List Str
  | 0, _, _ => []
  | _ + 1, _, [] => []
  | fuel + 1, prevWord, c :: rest =>
      match (if prevWord then none else tryMatchFJ (c :: rest)) with
      | some (ident, after) => lowerStr ident :: scanFJ fuel true after
      | none => scanFJ fuel (isWordChar c) rest

/-- Pass 1 of `_extract_table_names`: identifiers directly following
`FROM`/`JOIN`. -/
def pass1 (sql : Str) : List Str := scanFJ sql.length false sql

/-- The `\b` assertion after a whole-word match: the text after the
matched word is empty or starts with a non-word character. -/
def boundaryAfter (k s : Str) : Bool :=
  match s.drop k.length with
  | [] => true
  | d :: _ => !isWordChar d

/-- Scanner for `re.search(rf"\b{k}\b", sql, re.IGNORECASE)` (db.py line
58): is there a case-insensitive whole-word occurrence of `k` in the
scanned text?  `prevWord` tracks the `\b` assertion before the word. -/
def wordOccursAux (k : Str) : Bool → Str → Bool
  | _, [] => false
  | prevWord, c :: rest =>
      (!prevWord && ciPrefix k (c :: rest) && boundaryAfter k (c :: rest))
        || wordOccursAux k (isWordChar c) rest

/-- `re.search(rf"\b{k}\b", sql, re.IGNORECASE) is not None`. -/
def wordOccursCI (k s : Str) : Bool := wordOccursAux k false s

/-- Pass 2 of `_extract_table_names` (db.py lines 56-59): every
schema-known table name with a whole-word occurrence anywhere in the
text. -/
def pass2 (sql : Str) : List Str := knownTables.filter (fun k => wordOccursCI k sql)

/-- Python string `≤`: code-point lexicographic order. -/
def strLe : Str → Str → Bool
  | [], _ => true
  | _ :: _, [] => false
  | a :: s, b :: t => if a = b then strLe s t else decide (a < b)

/-- Ordered insertion for `sorted` on a list of strings. -/
def insertStr (x : Str) : List Str → List Str
  | [] => [x]
  | y :: ys => if strLe x y then x :: y :: ys else y :: insertStr x ys

/-- Python `sorted` on a list of strings (insertion sort; only the
membership and duplicate-freedom of the output matter downstream). -/
def sortStrs : List Str → List Str
  | [] => []
  | x :: xs => insertStr x (sortStrs xs)

/-- db.py `_extract_table_names` (lines 39-61): the union of both
passes as a deduplicated, sorted list — the Python `sorted(set(...))`. -/
def _extract_table_names (sql : Str) : List Str :=
  sortStrs ((pass1 sql ++ pass2 sql).dedup)

/-- Specification-side reading of "the table name `k` occurs as a whole
word in `s`, case-insensitively": some decomposition `s = p ++ m ++ q`
where `m` lowercases to `k` and both neighbouring characters (when
present) are non-word characters. -/
def WholeWordOccursCI (k s : Str) : Prop :=
  ∃ p m q : Str, s = p ++ m ++ q ∧ lowerStr m = k ∧
    (∀ c, p.getLast? = some c → isWordChar c = false) ∧
    (∀ c, q.head? = some c → isWordChar c = false)

/-- A string with no ASCII uppercase letter. -/
def NoUpper (t : Str) : Prop := ∀ c ∈ t, isUpperA c = false

/-- security.py `ROLE_TABLES` (lines 5-10): the static role policy, with
lower-case keys; `planner` deliberately excludes `revenue_data`. -/
def ROLE_TABLES : List (Str × List Str) :=
  [((("admin").data, [("meter_table").data, ("customer_table").data, ("revenue_data").data])),
   ((("planner").data, [("meter_table").data, ("customer_table").data]))]

/-- security.py `allowed_tables_for_role` (lines 13-15):
`ROLE_TABLES.get((role or "").lower(), [])`. -/
def allowed_tables_for_role (role : Str) : List Str :=
  (ROLE_TABLES.lookup (lowerStr role)).getD []

/-- Result of `secure_run_query`, one constructor per `return` site:
the "Unsafe or disallowed SQL statement" error, the
`unauthorized_table_access` error carrying the offending table, the
`{rows, columns}` success dict, and the execution-error dict of the
`except` branch. -/
inductive ExecResult (Row : Type) where
  | unsafeStatement : ExecResult Row
  | unauthorized : Str → ExecResult Row
  | success : List Row → List Str → ExecResult Row
  | execError : Str → ExecResult Row
deriving DecidableEq

/-- Modelled from the spec: the SQLite store that `secure_run_query`
executes against (the `sqlite3` library is outside the repository).
`exec` runs one SQL statement on a store state and either yields rows,
column names and the successor state or fails; `honors` is the engine's
guarantee that a statement ending in `LIMIT n;` returns at most `n`
rows. -/
structure Db (Row State : Type) where
  exec : State → Str → Except Str (List Row × List Str × State)
  honors : ∀ st q n rows cols st',
    ((((" LIMIT ").data ++ (toString n).data) ++ [';']) <:+ q) →
    exec st q = Except.ok (rows, cols, st') → rows.length ≤ n

/-- db.py lines 110-123: `BEGIN`, execute, fetch, commit inside
`try`; on any exception `rollback` and return the error; `finally`
close.  Modelled from the spec: a rolled-back transaction leaves the
pre-`BEGIN` state, and the `finally` always closes the connection (the
final boolean). -/
def runTxn {Row State : Type} (db : Db Row State) (st : State) (q : Str) :
    ExecResult Row × State × Bool :=
  match db.exec st q with
  | Except.ok (rows, cols, st') => (ExecResult.success rows cols, st', true)
  | Except.error e => (ExecResult.execError e, st, true)

/-- The row-cap condition of db.py line 92 on the stripped statement:
starts with `select` (case-insensitively), contains no `" limit "`, and
does not end in `"limit"`. -/
def capConds (sql : Str) : Bool :=
  ("select").data.isPrefixOf (lowerStr (pyStrip sql))
    && !containsSub ((" limit ").data) (lowerStr (pyStrip sql))
    && !(("limit").data.isSuffixOf (lowerStr (pyStrip sql)))

/-- db.py lines 90-96: strip the statement; when the cap condition
holds, drop a trailing `';'` and append `" LIMIT {max_rows};"`. -/
def applyCap (sql : Str) (maxRows : Nat) : Str :=
  if capConds sql then
    (if (pyStrip sql).getLast? = some ';' then (pyStrip sql).dropLast else pyStrip sql)
      ++ (((" LIMIT ").data ++ (toString maxRows).data) ++ [';'])
  else pyStrip sql

/-- The skip tuple of db.py line 101: tokens never treated as table
names. -/
def skipTokens : List Str :=
  [[], (",").data, ("select").data, ("from").data, ("where").data,
   ("join").data, ("on").data, ("group").data, ("by").data, ("order").data]

/-- db.py line 105: `re.match(r"[a-zA-Z0-9_]+\(|'|\"", t)` — the token
starts with a quote, or with a nonempty word-character run followed by
`'('`. -/
def looksLikeFunction (t : Str) : Bool :=
  (match t with
   | [] => false
   | c :: _ => decide (c = '\'') || decide (c = '"'))
  || (!(t.takeWhile isWordChar).isEmpty
      && t.get? (t.takeWhile isWordChar).length = some '(')

/-- The authorization loop of db.py lines 100-107: the first extracted
token that is not skipped and not in `role_allowed_tables`, if any. -/
def firstUnauthorized (allowed : List Str) : List Str → Option Str
  | [] => none
  | t :: rest =>
      if skipTokens.contains t then firstUnauthorized allowed rest
      else if looksLikeFunction t then firstUnauthorized allowed rest
      else if allowed.contains t then firstUnauthorized allowed rest
      else some t

/-- db.py `secure_run_query` (lines 77-123): safety check, row-cap
rewrite, table extraction and authorization, then the transaction.
Returns the result together with the final store state. -/
def secure_run_query {Row State : Type} (db : Db Row State) (st : State)
    (sql : Str) (role_allowed_tables : List Str) (maxRows : Nat) :
    ExecResult Row × State :=
  if !(_is_safe_statement sql) then (ExecResult.unsafeStatement, st)
  else
    match firstUnauthorized role_allowed_tables (_extract_table_names sql) with
    | some t => (ExecResult.unauthorized t, st)
    | none =>
        ((runTxn db st (applyCap sql maxRows)).1,
         (runTxn db st (applyCap sql maxRows)).2.1)

/-- The admin-level table list that `run_query` (db.py line 133) builds
for itself. -/
def legacyAllowed : List Str :=
  [("meter_table").data, ("customer_table").data, ("revenue_data").data]

/-- db.py `run_query` (lines 126-135): the legacy wrapper, executing
with admin-level table access. -/
def run_query {Row State : Type} (db : Db Row State) (st : State)
    (query : Str) (maxRows : Nat) : ExecResult Row × State :=
  secure_run_query db st query legacyAllowed maxRows

/-- chatbot_pipeline.py line 110: the chart point budget. -/
def MAX_POINTS : Nat := 200

/-- Python slice `xs[::k]` for a stride `k ≥ 1`: the elements at indices
`0, k, 2k, …`; there are `⌈|xs|/k⌉` of them.  All indices hit the list,
so the default of `getD` is never used. -/
def pyStride {α : Type} [Inhabited α] (xs : List α) (k : Nat) : List α :=
  (List.range ((xs.length + k - 1) / k)).map (fun i => xs.getD (i * k) default)

/-- chatbot_pipeline.py lines 109-114: when more than `MAX_POINTS`
points remain, stride-downsample both series with
`step = len(dates) // MAX_POINTS`. -/
def downsamplePair {α β : Type} [Inhabited α] [Inhabited β]
    (dates : List α) (values : List β) : List α × List β :=
  if MAX_POINTS < dates.length then
    (pyStride dates (dates.length / MAX_POINTS),
     pyStride values (dates.length / MAX_POINTS))
  else (dates, values)

/-- Python list indexing `r[i]` with negative-index wraparound;
`none` models the `IndexError` that the caller's `try` swallows. -/
def pyGet {α : Type} (r : List α) (i : Int) : Option α :=
  if 0 ≤ i then r.get? i.toNat
  else if 0 ≤ (r.length : Int) + i then r.get? ((r.length : Int) + i).toNat
  else none

/-- chatbot_pipeline.py lines 78-83: index of the datetime column — the
first column whose lowercased name contains "date" or "time", else 0. -/
def detect_datetime_idx (columns : List Str) : Int :=
  match columns.findIdx? (fun c =>
      containsSub (("date").data) (lowerStr c) || containsSub (("time").data) (lowerStr c)) with
  | some i => (i : Int)
  | none => 0

/-- chatbot_pipeline.py lines 78-89: index of the value column — the
first column whose lowercased name contains one of "load", "mw", "kwh",
"revenue", else the last column (`len(columns) - 1`, which is `-1` when
there are no columns). -/
def detect_value_idx (columns : List Str) : Int :=
  match columns.findIdx? (fun c =>
      [("load").data, ("mw").data, ("kwh").data, ("revenue").data].any
        (fun w => containsSub w (lowerStr c))) with
  | some i => (i : Int)
  | none => (columns.length : Int) - 1

section Shaper

variable {Cell DT V : Type} [Inhabited DT] [Inhabited V]
variable (strptime : Str → Str → Option DT)
variable (cellStr : Cell → Str) (toFloat : Cell → Option V)

/-- The four `strptime` formats tried in order by
`parse_datetime_safe` (chatbot_pipeline.py lines 53-58). -/
def fmtList : List Str :=
  [("%Y-%m-%d %H:%M:%S").data, ("%Y-%m-%d %H:%M").data,
   ("%Y-%m-%d").data, ("%Y-%m").data]

/-- The year-week format of the final fallback (line 66). -/
def weeklyFmt : Str := ("%Y-W%W-%w").data

/-- chatbot_pipeline.py `parse_datetime_safe` (lines 50-71): try each
format in order on `str(val)`, then the weekly-bucket fallback on
`str(val) + "-1"`; `none` when every format fails.  `strptime` takes
the date string first and the format second, and models
`datetime.strptime` (outside the repository); a raised `ValueError` is
its `none`. -/
def parse_datetime_safe (val : Cell) : Option DT :=
  let s := cellStr val
  (fmtList.filterMap (fun f => strptime s f)).head?
    <|> strptime (s ++ (("-1").data)) weeklyFmt

/-- One iteration of the row loop (chatbot_pipeline.py lines 93-102):
a row contributes a point exactly when the datetime cell exists and
parses and the value cell exists and converts with `float`; any failure
(`continue` or a swallowed exception) drops the row. -/
def rowPoint (didx vidx : Int) (r : List Cell) : Option (DT × V) :=
  match pyGet r didx with
  | none => none
  | some cD =>
      match parse_datetime_safe strptime cellStr cD with
      | none => none
      | some dt =>
          match pyGet r vidx with
          | none => none
          | some cV =>
              match toFloat cV with
              | none => none
              | some v => some (dt, v)

/-- The row loop itself: the `dates` and `values` accumulators after
scanning all rows in order. -/
def collectPoints (didx vidx : Int) : List (List Cell) → List DT × List V
  | [] => ([], [])
  | r :: rest =>
      match rowPoint strptime cellStr toFloat didx vidx r with
      | none => collectPoints didx vidx rest
      | some (d, v) =>
          let p := collectPoints didx vidx rest
          (d :: p.1, v :: p.2)

/-- chatbot_pipeline.py `render_graph_png` (lines 73-140): `None` when
there are no rows or no valid points survive the loop, otherwise the
downsampled (dates, values) series.  The matplotlib plotting and base64
encoding of that series are external; the model returns the series
handed to the plot. -/
def render_graph_png (rows : List (List Cell)) (columns : List Str) :
    Option (List DT × List V) :=
  if rows.isEmpty then none
  else
    if ((collectPoints strptime cellStr toFloat (detect_datetime_idx columns)
          (detect_value_idx columns) rows).1.isEmpty
        || (collectPoints strptime cellStr toFloat (detect_datetime_idx columns)
          (detect_value_idx columns) rows).2.isEmpty) then none
    else some (downsamplePair
      (collectPoints strptime cellStr toFloat (detect_datetime_idx columns)
        (detect_value_idx columns) rows).1
      (collectPoints strptime cellStr toFloat (detect_datetime_idx columns)
        (detect_value_idx columns) rows).2)

end Shaper

/-- The table names, as values. -/
def meterName : Str := ("meter_table").data

/-- The customer table name. -/
def customerName : Str := ("customer_table").data

/-- The revenue table name. -/
def revenueName : Str := ("revenue_data").data

/-- Scenario A statement: `planner` asking for the revenue table. -/
def scenarioA_sql : Str := ("SELECT * FROM revenue_data;").data

/-- Scenario B statement: stacked `SELECT` and `DROP`. -/
def scenarioB_sql : Str := ("SELECT id FROM meter_table; DROP TABLE meter_table;").data

/-- A statement that references the revenue table but also trips the
safety check (`"delete "` is denylisted). -/
def deleteRevenue_sql : Str := ("DELETE FROM revenue_data").data

/-- A dangerous statement the keyword denylist misses: `DROP` separated
from `TABLE` by a newline, so the denylisted substring `"drop "` (with
a trailing space) never occurs. -/
def dropNewline_sql : Str := ("DROP\nTABLE meter_table").data

/-- A single-statement text containing the denylisted `"drop "`. -/
def dropTable_sql : Str := ("DROP TABLE meter_table;").data

/-- An authorized, cap-eligible read statement. -/
def selectMeter_sql : Str := ("SELECT * FROM meter_table").data

/-- A read statement (SQLite top-level `VALUES` clause) that does not
begin with `select`, so the executor's row cap is never appended. -/
def valsSql : Str := ("VALUES (1),(2)").data

/-- A statement referencing an unknown table. -/
def selectFoo_sql : Str := ("SELECT * FROM foo").data

/-- Role strings used by the scenarios. -/
def plannerRole : Str := ("planner").data

/-- The admin role, lower-case (a policy key). -/
def adminRole : Str := ("admin").data

/-- The admin role in upper case — not a key of `ROLE_TABLES`. -/
def adminUpperRole : Str := ("ADMIN").data

/-- A role unknown to the policy. -/
def guestRole : Str := ("guest").data

/-- A store with no data: every statement succeeds with no rows.  Used
to exercise the executor's pre-execution control flow. -/
def dbUnit : Db Unit Unit where
  exec := fun st _ => Except.ok ([], [], st)
  honors := by
    intro st q n rows cols st' _ hok
    simp only [Except.ok.injEq, Prod.mk.injEq] at hok
    simp [← hok.1]

/-- A store whose every execution fails, exercising the rollback path. -/
def dbErr : Db Unit Unit where
  exec := fun _ _ => Except.error (("boom").data)
  honors := by
    intro st q n rows cols st' _ hok
    exact Except.noConfusion hok

/-- A store on which the uncapped `VALUES` statement matches 201 rows.
It honors every `LIMIT n;` suffix vacuously: `valsSql` ends in `')'`,
not `';'`, so no query equal to `valsSql` carries a trailing limit. -/
def dbVals : Db Unit Unit where
  exec := fun st q =>
    if q = valsSql then Except.ok (List.replicate 201 (), [], st)
    else Except.ok ([], [], st)
  honors := by
    intro st q n rows cols st' hsuf hok
    dsimp only at hok
    by_cases hq : q = valsSql
    · exfalso
      subst hq
      obtain ⟨p, hp⟩ := hsuf
      have hp' : ((p ++ ((" LIMIT ").data)) ++ (toString n).data) ++ [';'] = valsSql := by
        rw [← hp]; simp [List.append_assoc]
      have h1 : valsSql.getLast? = some ';' := by
        rw [← hp']; exact List.getLast?_concat _
      have h2 : valsSql.getLast? = some ')' := rfl
      rw [h2] at h1
      exact absurd (Option.some.inj h1) (by decide)
    · rw [if_neg hq] at hok
      simp only [Except.ok.injEq, Prod.mk.injEq] at hok
      simp [← hok.1]

/-- A `strptime` oracle on which every parse fails. -/
def strptimeNone : Str → Str → Option Unit := fun _ _ => none

/-- Identity stringification for cells that already are strings. -/
def cellStrId : Str → Str := id

/-- A float conversion on which every cell fails. -/
def toFloatNone : Str → Option Unit := fun _ => none

/-- Rows for the shaper witness: one row with an unparseable datetime. -/
def rowsW : List (List Str) := [[("garbage").data, ("x").data]]

/-- Columns for the shaper witness. -/
def colsW : List Str := [("date").data, ("load").data]

/-- A statement that hides the revenue table inside a subquery, in mixed
case. -/
def subquery_sql : Str := ("SELECT * FROM (SELECT * FROM Revenue_data)").data

/-- Membership is invariant under ordered insertion. -/
theorem mem_insertStr (a x : Str) : ∀ l : List Str, (a ∈ insertStr x l ↔ a = x ∨ a ∈ l)
  | [] => by simp [insertStr]
  | y :: ys => by
      simp only [insertStr]
      split
      · simp [List.mem_cons]
      · simp only [List.mem_cons, mem_insertStr a x ys]
        tauto

/-- Membership is invariant under sorting. -/
theorem mem_sortStrs (a : Str) : ∀ l : List Str, (a ∈ sortStrs l ↔ a ∈ l)
  | [] => Iff.rfl
  | x :: xs => by
      simp only [sortStrs, mem_insertStr a x (sortStrs xs), mem_sortStrs a xs,
        List.mem_cons]

/-- Ordered insertion of a fresh element keeps the list duplicate-free. -/
theorem nodup_insertStr (x : Str) : ∀ l : List Str, x ∉ l → l.Nodup → (insertStr x l).Nodup
  | [], _, _ => by simp [insertStr]
  | y :: ys, hx, hn => by
      simp only [insertStr]
      rcases List.nodup_cons.mp hn with ⟨hy, hys⟩
      split
      · exact List.nodup_cons.mpr ⟨hx, hn⟩
      · refine List.nodup_cons.mpr ⟨?_, nodup_insertStr x ys (fun h => hx (List.mem_cons_of_mem _ h)) hys⟩
        intro hmem
        rcases (mem_insertStr y x ys).mp hmem with h | h
        · exact hx (h ▸ List.mem_cons_self _ _)
        · exact hy h

/-- Sorting keeps a duplicate-free list duplicate-free. -/
theorem nodup_sortStrs : ∀ l : List Str, l.Nodup → (sortStrs l).Nodup
  | [], _ => List.nodup_nil
  | x :: xs, hn => by
      rcases List.nodup_cons.mp hn with ⟨hx, hxs⟩
      exact nodup_insertStr x (sortStrs xs)
        (fun h => hx ((mem_sortStrs x xs).mp h)) (nodup_sortStrs xs hxs)

/-- A name is extracted exactly when one of the two passes finds it. -/
theorem mem_extract_iff (sql t : Str) :
    t ∈ _extract_table_names sql ↔ t ∈ pass1 sql ∨ t ∈ pass2 sql := by
  unfold _extract_table_names
  rw [mem_sortStrs, List.mem_dedup, List.mem_append]

/-- The extracted list is duplicate-free. -/
theorem nodup_extract (sql : Str) : (_extract_table_names sql).Nodup :=
  nodup_sortStrs _ (List.nodup_dedup _)

/-- Shifting an uppercase code point by 32 stays inside the valid
character range. -/
theorem toNat_lower_shift (c : Char) (h1 : 65 ≤ c.toNat) (h2 : c.toNat ≤ 90) :
    (Char.ofNat (c.toNat + 32)).toNat = c.toNat + 32 := by
  have hv : (c.toNat + 32).isValidChar := Or.inl (by omega)
  rw [Char.ofNat, dif_pos hv]
  simp [Char.ofNatAux, Char.toNat, UInt32.toNat, BitVec.toNat_ofNatLt]

/-- ASCII lowercasing never produces an uppercase letter. -/
theorem lowerChar_not_upper (c : Char) : isUpperA (lowerChar c) = false := by
  unfold lowerChar isUpperA
  split
  · rename_i h
    rw [toNat_lower_shift c h.1 h.2]
    simp only [decide_eq_false_iff_not, not_and, not_le]
    intro
    omega
  · rename_i h
    simp only [decide_eq_false_iff_not]
    omega

/-- A lowercased string has no uppercase letter. -/
theorem lowerStr_noUpper (w : Str) : NoUpper (lowerStr w) := by
  intro c hc
  rcases List.mem_map.mp hc with ⟨c', _, rfl⟩
  exact lowerChar_not_upper c'

/-- Every identifier emitted by the pass-1 scanner is a lowercased
string. -/
theorem mem_scanFJ_lower :
    ∀ (fuel : Nat) (prev : Bool) (s t : Str), t ∈ scanFJ fuel prev s → ∃ w, t = lowerStr w
  | 0, _, _, _, h => absurd h (by simp [scanFJ])
  | _ + 1, _, [], _, h => absurd h (by simp [scanFJ])
  | fuel + 1, prev, c :: rest, t, h => by
      rw [scanFJ] at h
      rcases hm : (if prev then none else tryMatchFJ (c :: rest)) with _ | ⟨ident, after⟩
      · rw [hm] at h
        exact mem_scanFJ_lower fuel (isWordChar c) rest t h
      · rw [hm] at h
        rcases List.mem_cons.mp h with h | h
        · exact ⟨ident, h⟩
        · exact mem_scanFJ_lower fuel true after t h

/-- Everything the extractor returns is free of uppercase letters. -/
theorem extract_noUpper (sql : Str) : ∀ t ∈ _extract_table_names sql, NoUpper t := by
  intro t ht
  rcases (mem_extract_iff sql t).mp ht with h | h
  · rcases mem_scanFJ_lower _ _ _ _ h with ⟨w, rfl⟩
    exact lowerStr_noUpper w
  · have hk : t ∈ knownTables := List.mem_of_mem_filter h
    have hall : ∀ t ∈ knownTables, NoUpper t := by
      simp only [NoUpper]
      decide
    exact hall t hk

/-- Completeness of the whole-word scanner: whenever the text decomposes
as `p ++ m ++ q` around a case-insensitive whole-word occurrence of
`k`, the scan succeeds, for any correctly tracked boundary state. -/
theorem wordOccursAux_complete (k m q : Str) (hm : lowerStr m = k) (hne : m ≠ [])
    (hq : ∀ c, q.head? = some c → isWordChar c = false) :
    ∀ (p : Str) (prev : Bool), (p = [] → prev = false) →
      (∀ c, p.getLast? = some c → isWordChar c = false) →
      wordOccursAux k prev (p ++ (m ++ q)) = true := by
  have hl : k.length = m.length := by
    rw [← hm]
    exact List.length_map _ _
  have hcp : ciPrefix k (m ++ q) = true := by
    unfold ciPrefix
    rw [hl, List.take_left]
    simp [hm]
  have hba : boundaryAfter k (m ++ q) = true := by
    unfold boundaryAfter
    rw [hl, List.drop_left]
    rcases hqh : q with _ | ⟨d, q'⟩
    · rfl
    · have := hq d (by rw [hqh]; rfl)
      simp [this]
  intro p
  induction p with
  | nil =>
      intro prev hpe hpl
      have hprev : prev = false := hpe rfl
      subst hprev
      rcases hmm : m with _ | ⟨c, m'⟩
      · exact absurd hmm hne
      · rw [hmm] at hcp hba
        simp only [List.cons_append] at hcp hba
        simp only [List.nil_append, List.cons_append]
        rw [wordOccursAux]
        simp [hcp, hba]
  | cons a p' ih =>
      intro prev hpe hpl
      simp only [List.cons_append]
      rw [wordOccursAux]
      have hrec : wordOccursAux k (isWordChar a) (p' ++ (m ++ q)) = true := by
        apply ih
        · intro hp'
          subst hp'
          exact hpl a (by simp)
        · intro c hc
          apply hpl
          rcases p' with _ | ⟨b, p''⟩
          · simp at hc
          · rw [List.getLast?_cons_cons]
            exact hc
      simp [hrec]

/-- Completeness of `wordOccursCI` against the specification-side
occurrence predicate. -/
theorem wordOccursCI_complete (k s : Str) (hne : k ≠ []) (h : WholeWordOccursCI k s) :
    wordOccursCI k s = true := by
  obtain ⟨p, m, q, rfl, hm, hp, hq⟩ := h
  have hmne : m ≠ [] := by
    intro he
    subst he
    exact hne (by simpa using hm.symm)
  unfold wordOccursCI
  rw [List.append_assoc]
  exact wordOccursAux_complete k m q hm hmne hq p false (fun _ => rfl) hp

/-- Pass 2 finds every schema-known table that occurs as a whole word
anywhere in the statement. -/
theorem mem_pass2 (sql k : Str) (hk : k ∈ knownTables) (h : WholeWordOccursCI k sql) :
    k ∈ pass2 sql := by
  have hne : k ≠ [] := by
    intro he
    subst he
    revert hk
    decide
  exact List.mem_filter.mpr ⟨hk, wordOccursCI_complete k sql hne h⟩

/-- When some extracted token is neither skipped, function-like, nor
authorized, the loop reports an unauthorized token. -/
theorem firstUnauthorized_some_of_mem (allowed : List Str) :
    ∀ (ts : List Str) (t : Str), t ∈ ts → skipTokens.contains t = false →
      looksLikeFunction t = false → allowed.contains t = false →
      ∃ t', firstUnauthorized allowed ts = some t' ∧ t' ∈ ts ∧ allowed.contains t' = false
  | [], t, ht, _, _, _ => absurd ht (List.not_mem_nil t)
  | u :: rest, t, ht, h1, h2, h3 => by
      rw [firstUnauthorized]
      by_cases hu1 : skipTokens.contains u = true
      · rw [if_pos hu1]
        have hmem : t ∈ rest := by
          rcases List.mem_cons.mp ht with rfl | hmem
          · rw [h1] at hu1
            exact absurd hu1 (by simp)
          · exact hmem
        obtain ⟨t', ha, hb, hc⟩ := firstUnauthorized_some_of_mem allowed rest t hmem h1 h2 h3
        exact ⟨t', ha, List.mem_cons_of_mem u hb, hc⟩
      · rw [if_neg hu1]
        by_cases hu2 : looksLikeFunction u = true
        · rw [if_pos hu2]
          have hmem : t ∈ rest := by
            rcases List.mem_cons.mp ht with rfl | hmem
            · rw [h2] at hu2
              exact absurd hu2 (by simp)
            · exact hmem
          obtain ⟨t', ha, hb, hc⟩ := firstUnauthorized_some_of_mem allowed rest t hmem h1 h2 h3
          exact ⟨t', ha, List.mem_cons_of_mem u hb, hc⟩
        · rw [if_neg hu2]
          by_cases hu3 : allowed.contains u = true
          · rw [if_pos hu3]
            have hmem : t ∈ rest := by
              rcases List.mem_cons.mp ht with rfl | hmem
              · rw [h3] at hu3
                exact absurd hu3 (by simp)
              · exact hmem
            obtain ⟨t', ha, hb, hc⟩ := firstUnauthorized_some_of_mem allowed rest t hmem h1 h2 h3
            exact ⟨t', ha, List.mem_cons_of_mem u hb, hc⟩
          · rw [if_neg hu3]
            exact ⟨u, rfl, List.mem_cons_self u rest, Bool.eq_false_iff.mpr hu3⟩

/-- The loop only ever reports tokens outside the allowed list. -/
theorem firstUnauthorized_sound (allowed : List Str) :
    ∀ (ts : List Str) (t : Str), firstUnauthorized allowed ts = some t →
      t ∈ ts ∧ allowed.contains t = false
  | [], _, h => Option.noConfusion h
  | u :: rest, t, h => by
      rw [firstUnauthorized] at h
      by_cases hu1 : skipTokens.contains u = true
      · rw [if_pos hu1] at h
        obtain ⟨ha, hb⟩ := firstUnauthorized_sound allowed rest t h
        exact ⟨List.mem_cons_of_mem u ha, hb⟩
      · rw [if_neg hu1] at h
        by_cases hu2 : looksLikeFunction u = true
        · rw [if_pos hu2] at h
          obtain ⟨ha, hb⟩ := firstUnauthorized_sound allowed rest t h
          exact ⟨List.mem_cons_of_mem u ha, hb⟩
        · rw [if_neg hu2] at h
          by_cases hu3 : allowed.contains u = true
          · rw [if_pos hu3] at h
            obtain ⟨ha, hb⟩ := firstUnauthorized_sound allowed rest t h
            exact ⟨List.mem_cons_of_mem u ha, hb⟩
          · rw [if_neg hu3] at h
            cases h
            exact ⟨List.mem_cons_self u rest, Bool.eq_false_iff.mpr hu3⟩

/-- An `unauthorized` outcome always names a table outside the caller's
allowed list. -/
theorem secure_unauthorized_sound {Row State : Type} (db : Db Row State) (st : State)
    (sql : Str) (allowed : List Str) (maxRows : Nat) (t : Str) :
    (secure_run_query db st sql allowed maxRows).1 = ExecResult.unauthorized t →
    t ∈ _extract_table_names sql ∧ allowed.contains t = false := by
  intro h
  unfold secure_run_query at h
  split at h
  · exact absurd h (by simp)
  · split at h
    · rename_i t' heq
      simp only at h
      cases h
      exact firstUnauthorized_sound allowed (_extract_table_names sql) t heq
    · exfalso
      unfold runTxn at h
      rcases hde : db.exec st (applyCap sql maxRows) with e | ⟨rows, cols, st'⟩
      · rw [hde] at h
        simp at h
      · rw [hde] at h
        simp at h

/-- A `success` outcome came from the engine executing the capped
query on the original state. -/
theorem secure_success_exec {Row State : Type} (db : Db Row State) (st : State)
    (sql : Str) (allowed : List Str) (maxRows : Nat) (rows : List Row)
    (cols : List Str) (st' : State) :
    secure_run_query db st sql allowed maxRows = (ExecResult.success rows cols, st') →
    db.exec st (applyCap sql maxRows) = Except.ok (rows, cols, st') := by
  intro h
  unfold secure_run_query at h
  split at h
  · simp [Prod.ext_iff] at h
  · split at h
    · simp [Prod.ext_iff] at h
    · unfold runTxn at h
      rcases hde : db.exec st (applyCap sql maxRows) with e | ⟨r2, c2, s2⟩
      · rw [hde] at h
        simp [Prod.ext_iff] at h
      · rw [hde] at h
        simp only [Prod.ext_iff, ExecResult.success.injEq] at h
        obtain ⟨⟨hr, hc⟩, hs⟩ := h
        rw [hr, hc, hs]

/-- When the cap condition holds, the executed query carries the
`" LIMIT {maxRows};"` suffix. -/
theorem applyCap_suffix (sql : Str) (n : Nat) (h : capConds sql = true) :
    (((" LIMIT ").data ++ (toString n).data) ++ [';']) <:+ applyCap sql n := by
  unfold applyCap
  rw [if_pos h]
  exact List.suffix_append _ _

/-- Arithmetic of the stride: every sampled index `i * k` with
`i < ⌈n/k⌉` lands inside the list. -/
theorem mul_lt_of_lt_ceilDiv (n k i : Nat) (hk : 0 < k) (hi : i < (n + k - 1) / k) :
    i * k < n := by
  by_contra hc
  push_neg at hc
  have hc2 : n ≤ k * i := by rwa [Nat.mul_comm] at hc
  have h1 : (n + k - 1) / k ≤ (k * i + (k - 1)) / k := Nat.div_le_div_right (by omega)
  rw [Nat.mul_add_div hk] at h1
  have h2 : (k - 1) / k = 0 := Nat.div_eq_of_lt (by omega)
  omega

/-- The Python slice `xs[::k]` has `⌈|xs|/k⌉` elements. -/
theorem length_pyStride {α : Type} [Inhabited α] (xs : List α) (k : Nat) :
    (pyStride xs k).length = (xs.length + k - 1) / k := by
  unfold pyStride
  rw [List.length_map, List.length_range]

/-- The Python slice `xs[::k]` keeps exactly every `k`-th element. -/
theorem get?_pyStride {α : Type} [Inhabited α] (xs : List α) (k i : Nat) (hk : 0 < k)
    (hi : i < (xs.length + k - 1) / k) :
    (pyStride xs k).get? i = xs.get? (i * k) := by
  unfold pyStride
  rw [List.get?_map, List.get?_range hi, Option.map_some']
  have hlt : i * k < xs.length := mul_lt_of_lt_ceilDiv _ _ _ hk hi
  rw [List.get?_eq_get hlt, List.getD_eq_get _ _ hlt]

/-- The Python slice `xs[::k]` preserves any ordering relation the
input satisfies (it is an order-preserving subsequence). -/
theorem pairwise_pyStride {α : Type} [Inhabited α] (xs : List α) (k : Nat) (hk : 0 < k)
    (r : α → α → Prop) (h : xs.Pairwise r) : (pyStride xs k).Pairwise r := by
  unfold pyStride
  rw [List.pairwise_map, List.pairwise_iff_get]
  intro i j hij
  have hi : (List.get (List.range ((xs.length + k - 1) / k)) i) * k < xs.length := by
    apply mul_lt_of_lt_ceilDiv _ _ _ hk
    rw [List.get_range]
    simpa using i.isLt
  have hj : (List.get (List.range ((xs.length + k - 1) / k)) j) * k < xs.length := by
    apply mul_lt_of_lt_ceilDiv _ _ _ hk
    rw [List.get_range]
    simpa using j.isLt
  rw [List.getD_eq_get _ _ hi, List.getD_eq_get _ _ hj]
  apply List.pairwise_iff_get.mp h
  simp only [Fin.lt_def]
  rw [List.get_range, List.get_range]
  rw [Nat.mul_lt_mul_right hk]
  have := hij
  rw [Fin.lt_def] at this
  have hgi : List.get (List.range ((xs.length + k - 1) / k)) i = i.val := List.get_range _ _
  have hgj : List.get (List.range ((xs.length + k - 1) / k)) j = j.val := List.get_range _ _
  omega

section ShaperLemmas

variable {Cell DT V : Type} [Inhabited DT] [Inhabited V]
variable (strptime : Str → Str → Option DT)
variable (cellStr : Cell → Str) (toFloat : Cell → Option V)

/-- The accumulators are empty exactly when every row is dropped. -/
theorem collectPoints_eq_nil_iff (didx vidx : Int) :
    ∀ rows : List (List Cell),
      (collectPoints strptime cellStr toFloat didx vidx rows = ([], []) ↔
        ∀ r ∈ rows, rowPoint strptime cellStr toFloat didx vidx r = none)
  | [] => by simp [collectPoints]
  | r :: rest => by
      rw [collectPoints]
      rcases hrp : rowPoint strptime cellStr toFloat didx vidx r with _ | ⟨d, v⟩
      · rw [collectPoints_eq_nil_iff didx vidx rest]
        constructor
        · intro hall u hu
          rcases List.mem_cons.mp hu with rfl | hu
          · exact hrp
          · exact hall u hu
        · intro hall u hu
          exact hall u (List.mem_cons_of_mem r hu)
      · constructor
        · intro hpair
          exact absurd (congrArg Prod.fst hpair) (by simp)
        · intro hall
          have := hall r (List.mem_cons_self r rest)
          rw [hrp] at this
          exact absurd this (by simp)

/-- The first accumulator is empty exactly when both are. -/
theorem collectPoints_fst_nil_iff (didx vidx : Int) :
    ∀ rows : List (List Cell),
      ((collectPoints strptime cellStr toFloat didx vidx rows).1 = [] ↔
        collectPoints strptime cellStr toFloat didx vidx rows = ([], []))
  | [] => by simp [collectPoints]
  | r :: rest => by
      rw [collectPoints]
      rcases hrp : rowPoint strptime cellStr toFloat didx vidx r with _ | ⟨d, v⟩
      · exact collectPoints_fst_nil_iff didx vidx rest
      · simp [Prod.ext_iff]

/-- The second accumulator is empty exactly when both are. -/
theorem collectPoints_snd_nil_iff (didx vidx : Int) :
    ∀ rows : List (List Cell),
      ((collectPoints strptime cellStr toFloat didx vidx rows).2 = [] ↔
        collectPoints strptime cellStr toFloat didx vidx rows = ([], []))
  | [] => by simp [collectPoints]
  | r :: rest => by
      rw [collectPoints]
      rcases hrp : rowPoint strptime cellStr toFloat didx vidx r with _ | ⟨d, v⟩
      · exact collectPoints_snd_nil_iff didx vidx rest
      · simp [Prod.ext_iff]

/-- A dropped row leaves the accumulators of the remaining rows
unchanged: the loop continues instead of aborting. -/
theorem collectPoints_cons_none (didx vidx : Int) (r : List Cell)
    (rest : List (List Cell))
    (h : rowPoint strptime cellStr toFloat didx vidx r = none) :
    collectPoints strptime cellStr toFloat didx vidx (r :: rest) =
      collectPoints strptime cellStr toFloat didx vidx rest := by
  rw [collectPoints, h]

/-- The renderer yields an absent chart exactly when there are no rows
or every row is dropped. -/
theorem render_none_iff (rows : List (List Cell)) (columns : List Str) :
    render_graph_png strptime cellStr toFloat rows columns = none ↔
      (rows = [] ∨ ∀ r ∈ rows,
        rowPoint strptime cellStr toFloat
          (detect_datetime_idx columns) (detect_value_idx columns) r = none) := by
  unfold render_graph_png
  by_cases he : rows.isEmpty = true
  · rw [if_pos he]
    simp only [List.isEmpty_iff] at he
    simp [he]
  · rw [if_neg he]
    simp only [List.isEmpty_iff] at he
    constructor
    · intro h
      right
      by_cases hb :
          ((collectPoints strptime cellStr toFloat
            (detect_datetime_idx columns) (detect_value_idx columns) rows).1.isEmpty ||
           (collectPoints strptime cellStr toFloat
            (detect_datetime_idx columns) (detect_value_idx columns) rows).2.isEmpty) = true
      · rcases Bool.or_eq_true_iff.mp hb with hb1 | hb2
        · rw [List.isEmpty_iff] at hb1
          exact (collectPoints_eq_nil_iff strptime cellStr toFloat _ _ rows).mp
            ((collectPoints_fst_nil_iff strptime cellStr toFloat _ _ rows).mp hb1)
        · rw [List.isEmpty_iff] at hb2
          exact (collectPoints_eq_nil_iff strptime cellStr toFloat _ _ rows).mp
            ((collectPoints_snd_nil_iff strptime cellStr toFloat _ _ rows).mp hb2)
      · rw [if_neg hb] at h
        exact absurd h (by simp)
    · intro h
      rcases h with h | h
      · exact absurd h he
      · have hp := (collectPoints_eq_nil_iff strptime cellStr toFloat
          (detect_datetime_idx columns) (detect_value_idx columns) rows).mpr h
        rw [hp]
        simp

/-- When every ordinary format and the weekly fallback fail, the safe
parse fails. -/
theorem parse_datetime_safe_none (val : Cell)
    (h1 : ∀ f ∈ fmtList, strptime (cellStr val) f = none)
    (h2 : strptime (cellStr val ++ ("-1").data) weeklyFmt = none) :
    parse_datetime_safe strptime cellStr val = none := by
  unfold parse_datetime_safe
  dsimp only
  have hfm : fmtList.filterMap (fun f => strptime (cellStr val) f) = [] := by
    rw [List.filterMap_eq_nil]
    exact h1
  rw [hfm, h2]
  rfl

end ShaperLemmas

/-- C1 (counterexample): the claim predicts `UnauthorizedTableAccess`
for every statement referencing a table outside the role's set, but a
statement that also trips the safety check — here `DELETE FROM
revenue_data` under role `planner` — is answered with the unsafe-SQL
error instead, even though it references the unauthorized
`revenue_data`. -/
theorem C1_counterexample :
    (secure_run_query dbUnit () deleteRevenue_sql
        (allowed_tables_for_role plannerRole) 200).1 = ExecResult.unsafeStatement ∧
    revenueName ∈ _extract_table_names deleteRevenue_sql ∧
    (allowed_tables_for_role plannerRole).contains revenueName = false := by
  decide

/-- C1 (amended): for every store, role table set and SQL text that
passes the executor's safety check, if some extracted table is neither
a skipped keyword nor function-like and lies outside the allowed set,
the executor answers with `UnauthorizedTableAccess` naming such an
unauthorized extracted table, and returns no rows. -/
theorem C1_executor_unauthorized {Row State : Type} (db : Db Row State) (st : State)
    (sql t : Str) (allowed : List Str) (maxRows : Nat)
    (hsafe : _is_safe_statement sql = true)
    (hmem : t ∈ _extract_table_names sql)
    (hskip : skipTokens.contains t = false)
    (hfn : looksLikeFunction t = false)
    (hallow : allowed.contains t = false) :
    ∃ t', (secure_run_query db st sql allowed maxRows).1 = ExecResult.unauthorized t' ∧
      t' ∈ _extract_table_names sql ∧ allowed.contains t' = false := by
  obtain ⟨t', ha, hb, hc⟩ :=
    firstUnauthorized_some_of_mem allowed (_extract_table_names sql) t hmem hskip hfn hallow
  refine ⟨t', ?_, hb, hc⟩
  unfold secure_run_query
  rw [hsafe, ha]
  simp

/-- C1 (witness): Scenario A — role `planner`, statement
`SELECT * FROM revenue_data;` — is denied with an unauthorized table. -/
theorem C1_witness :
    ∃ t', (secure_run_query dbUnit () scenarioA_sql
        (allowed_tables_for_role plannerRole) 200).1 = ExecResult.unauthorized t' ∧
      t' ∈ _extract_table_names scenarioA_sql ∧
      (allowed_tables_for_role plannerRole).contains t' = false :=
  C1_executor_unauthorized dbUnit () scenarioA_sql revenueName
    (allowed_tables_for_role plannerRole) 200
    (by decide) (by decide) (by decide) (by decide) (by decide)

/-- C2: a statement whose text holds more than one `';'` is rejected as
a multi-statement, and this check precedes the keyword denylist. -/
theorem C2_multistatement (sql : Str) (h : 1 < countSemi sql) :
    validate sql = ValidateResult.multiStatementReject := by
  unfold validate
  rw [if_pos h]

/-- C2 (witness): Scenario B — `SELECT id FROM meter_table; DROP TABLE
meter_table;` triggers both rules and is classified as
multi-statement. -/
theorem C2_witness :
    1 < countSemi scenarioB_sql ∧
    validate scenarioB_sql = ValidateResult.multiStatementReject :=
  ⟨by decide, C2_multistatement scenarioB_sql (by decide)⟩

/-- C3 (counterexample): the claim predicts rejection whenever a
denylisted keyword occurs outside a quoted literal, but `DROP` followed
by a newline instead of a space — a dangerous, quote-free statement —
is accepted, because the denylist entry is the substring `"drop "` with
a trailing space. -/
theorem C3_counterexample :
    countSemi dropNewline_sql ≤ 1 ∧
    containsSub (("drop").data) (lowerStr dropNewline_sql) = true ∧
    dropNewline_sql.all (fun c => decide (c ≠ '\'') && decide (c ≠ '"')) = true ∧
    validate dropNewline_sql = ValidateResult.ok := by
  decide

/-- C3 (amended): a statement with at most one `';'` whose lowercased
text contains one of the exact denylisted substrings (each DML/DDL
keyword with its trailing space, or `vacuum`, `pragma`, `--`, `/*`,
`sqlite_master` anywhere, including inside quoted literals) is rejected
for a forbidden keyword. -/
theorem C3_forbidden_substring (sql : Str) (h1 : countSemi sql ≤ 1)
    (h2 : forbiddenList.any (fun f => containsSub f (lowerStr sql)) = true) :
    validate sql = ValidateResult.forbiddenKeywordReject := by
  unfold validate
  rw [if_neg (by omega), if_pos h2]

/-- C3 (witness): `DROP TABLE meter_table;` is rejected for its
forbidden keyword. -/
theorem C3_witness :
    countSemi dropTable_sql ≤ 1 ∧
    forbiddenList.any (fun f => containsSub f (lowerStr dropTable_sql)) = true ∧
    validate dropTable_sql = ValidateResult.forbiddenKeywordReject :=
  ⟨by decide, by decide, C3_forbidden_substring dropTable_sql (by decide) (by decide)⟩

/-- C4: the extractor returns a deduplicated list of uppercase-free
names, and whenever a schema-known table name occurs as a
case-insensitive whole word anywhere in the statement — also inside a
subquery or quoted text — that name is extracted. -/
theorem C4_extractor (s k : Str) (hk : k ∈ knownTables) (ho : WholeWordOccursCI k s) :
    k ∈ _extract_table_names s ∧ (_extract_table_names s).Nodup ∧
      ∀ t ∈ _extract_table_names s, NoUpper t :=
  ⟨(mem_extract_iff s k).mpr (Or.inr (mem_pass2 s k hk ho)),
   nodup_extract s, extract_noUpper s⟩

/-- C4 (witness): `Revenue_data`, mixed-case and hidden inside a
subquery, is extracted. -/
theorem C4_witness :
    WholeWordOccursCI revenueName subquery_sql ∧
    revenueName ∈ _extract_table_names subquery_sql :=
  have ho : WholeWordOccursCI revenueName subquery_sql :=
    ⟨("SELECT * FROM (SELECT * FROM ").data, ("Revenue_data").data, (")").data,
      by decide, by decide,
      by
        intro c hc
        have h2 : ((("SELECT * FROM (SELECT * FROM ").data).getLast? = some ' ') := by decide
        rw [h2] at hc
        rw [← Option.some.inj hc]
        decide,
      by
        intro c hc
        have h2 : (((")").data).head? = some ')') := by decide
        rw [h2] at hc
        rw [← Option.some.inj hc]
        decide⟩
  ⟨ho, (C4_extractor subquery_sql revenueName (by decide) ho).1⟩

/-- C5 (counterexample): the claim says every role string that is not a
key of the policy gets the empty set, but the policy lookup lowercases
the role first: `"ADMIN"` is not a key of `ROLE_TABLES`, yet it is
granted the full admin table set. -/
theorem C5_counterexample :
    (ROLE_TABLES.map Prod.fst).contains adminUpperRole = false ∧
    allowed_tables_for_role adminUpperRole = [meterName, customerName, revenueName] ∧
    allowed_tables_for_role adminUpperRole ≠ [] := by
  decide

/-- C5 (amended): deny-by-default holds for every role whose lowercased
form is not a policy key (in particular the empty string); `planner`
maps to exactly the meter and customer tables — excluding the revenue
table — and `admin` to all three. -/
theorem C5_policy :
    (∀ role : Str, ROLE_TABLES.lookup (lowerStr role) = none →
      allowed_tables_for_role role = []) ∧
    allowed_tables_for_role plannerRole = [meterName, customerName] ∧
    revenueName ∉ allowed_tables_for_role plannerRole ∧
    allowed_tables_for_role adminRole = [meterName, customerName, revenueName] := by
  refine ⟨?_, by decide, by decide, by decide⟩
  intro role h
  unfold allowed_tables_for_role
  rw [h]
  rfl

/-- C5 (witness): the unknown role `guest` gets the empty table set. -/
theorem C5_witness :
    ROLE_TABLES.lookup (lowerStr guestRole) = none ∧
    allowed_tables_for_role guestRole = [] :=
  ⟨by decide, C5_policy.1 guestRole (by decide)⟩

set_option maxRecDepth 100000 in
/-- C6 (counterexample): the claim caps every read query, but the cap is
only appended to statements beginning with `select`: the row-returning
`VALUES (1),(2)` — validated, referencing no tables, carrying no limit
clause — is executed uncapped and returns 201 rows against a cap of
200 on a store honoring `LIMIT`. -/
theorem C6_counterexample :
    _is_safe_statement valsSql = true ∧
    _extract_table_names valsSql = [] ∧
    capConds valsSql = false ∧
    (secure_run_query dbVals () valsSql legacyAllowed 200).1 =
      ExecResult.success (List.replicate 201 ()) [] ∧
    200 < (List.replicate 201 ()).length := by
  decide

/-- C6 (amended): for every statement satisfying the executor's cap
condition (starts with `select`, no `" limit "` substring, does not end
in `"limit"`), a successful execution against any store that honors a
trailing `LIMIT n;` clause returns at most `maxRows` rows. -/
theorem C6_row_cap {Row State : Type} (db : Db Row State) (st : State)
    (sql : Str) (allowed : List Str) (maxRows : Nat) (rows : List Row)
    (cols : List Str) (st' : State)
    (hcap : capConds sql = true)
    (hrun : secure_run_query db st sql allowed maxRows =
      (ExecResult.success rows cols, st')) :
    rows.length ≤ maxRows :=
  db.honors st (applyCap sql maxRows) maxRows rows cols st'
    (applyCap_suffix sql maxRows hcap)
    (secure_success_exec db st sql allowed maxRows rows cols st' hrun)

/-- C6 (witness): an authorized plain `SELECT` is capped. -/
theorem C6_witness :
    capConds selectMeter_sql = true ∧
    secure_run_query dbUnit () selectMeter_sql legacyAllowed 200 =
      (ExecResult.success ([] : List Unit) [], ()) ∧
    ([] : List Unit).length ≤ 200 :=
  ⟨by decide, by decide,
   C6_row_cap dbUnit () selectMeter_sql legacyAllowed 200 [] [] ()
     (by decide) (by decide)⟩

/-- C7: whenever the engine raises during execution, the transaction
block returns `ExecutionError` with the raised message, the store state
is the pre-transaction state (the rollback), and the connection is
closed before returning (the `finally`). -/
theorem C7_rollback {Row State : Type} (db : Db Row State) (st : State) (q e : Str)
    (h : db.exec st q = Except.error e) :
    runTxn db st q = (ExecResult.execError e, st, true) := by
  unfold runTxn
  rw [h]

/-- C7 (witness): a store that always raises rolls back and reports the
error. -/
theorem C7_witness :
    dbErr.exec () [] = Except.error (("boom").data) ∧
    runTxn dbErr () [] = (ExecResult.execError (("boom").data), (), true) :=
  ⟨rfl, C7_rollback dbErr () [] (("boom").data) rfl⟩

set_option maxRecDepth 100000 in
/-- C8 (counterexample): the claim predicts a rendered length of
`⌊n / step⌋`, but for `n = 401` (`step = 2`) the Python stride slice
keeps `⌈n / step⌉ = 201` points, not `⌊401 / 2⌋ = 200`. -/
theorem C8_counterexample :
    MAX_POINTS < (List.range 401).length ∧
    (downsamplePair (List.range 401) (List.range 401)).1.length = 201 ∧
    (List.range 401).length / ((List.range 401).length / MAX_POINTS) = 200 ∧
    (downsamplePair (List.range 401) (List.range 401)).1.length ≠
      (List.range 401).length / ((List.range 401).length / MAX_POINTS) := by
  decide

/-- C8 (amended): for a series longer than the budget, the shaper
computes `step = ⌊n / 200⌋` and keeps every `step`-th pair; the
rendered series has length `⌈n / step⌉` and preserves any ordering of
the input — in particular chronological order, so the first and last
kept points stay in order. -/
theorem C8_downsample {α β : Type} [Inhabited α] [Inhabited β]
    (dates : List α) (values : List β) (h : MAX_POINTS < dates.length) :
    (downsamplePair dates values).1.length =
      (dates.length + dates.length / MAX_POINTS - 1) / (dates.length / MAX_POINTS) ∧
    (downsamplePair dates values).2.length =
      (values.length + dates.length / MAX_POINTS - 1) / (dates.length / MAX_POINTS) ∧
    (∀ i, i < (dates.length + dates.length / MAX_POINTS - 1) /
        (dates.length / MAX_POINTS) →
      (downsamplePair dates values).1.get? i =
        dates.get? (i * (dates.length / MAX_POINTS))) ∧
    (∀ r : α → α → Prop, dates.Pairwise r →
      (downsamplePair dates values).1.Pairwise r) := by
  have hk : 0 < dates.length / MAX_POINTS :=
    (Nat.one_le_div_iff (by decide)).mpr (Nat.le_of_lt h)
  unfold downsamplePair
  rw [if_pos h]
  exact ⟨length_pyStride dates _, length_pyStride values _,
    fun i hi => get?_pyStride dates _ i hk hi,
    fun r hr => pairwise_pyStride dates _ hk r hr⟩

set_option maxRecDepth 100000 in
/-- C8 (witness): the amended length formula evaluated at `n = 401`. -/
theorem C8_witness :
    MAX_POINTS < (List.range 401).length ∧
    (downsamplePair (List.range 401) (List.range 401)).1.length =
      ((List.range 401).length + (List.range 401).length / MAX_POINTS - 1) /
        ((List.range 401).length / MAX_POINTS) :=
  ⟨by decide, (C8_downsample (List.range 401) (List.range 401) (by decide)).1⟩

/-- C9: in chart mode, a row whose datetime cell fails every format is
dropped without aborting the scan of the remaining rows; the chart is
absent (`none`, not an error) exactly when there are no rows or no
valid points remain; and a cell failing the whole ordered format list
including the weekly fallback parses to `none`. -/
theorem C9_chart_drops {Cell DT V : Type} [Inhabited DT] [Inhabited V]
    (strptime : Str → Str → Option DT) (cellStr : Cell → Str)
    (toFloat : Cell → Option V) :
    (∀ columns : List Str,
      render_graph_png strptime cellStr toFloat ([] : List (List Cell)) columns = none) ∧
    (∀ (didx vidx : Int) (r : List Cell) (rest : List (List Cell)),
      rowPoint strptime cellStr toFloat didx vidx r = none →
      collectPoints strptime cellStr toFloat didx vidx (r :: rest) =
        collectPoints strptime cellStr toFloat didx vidx rest) ∧
    (∀ (rows : List (List Cell)) (columns : List Str),
      render_graph_png strptime cellStr toFloat rows columns = none ↔
        (rows = [] ∨ ∀ r ∈ rows, rowPoint strptime cellStr toFloat
          (detect_datetime_idx columns) (detect_value_idx columns) r = none)) ∧
    (∀ val : Cell, (∀ f ∈ fmtList, strptime (cellStr val) f = none) →
      strptime (cellStr val ++ ("-1").data) weeklyFmt = none →
      parse_datetime_safe strptime cellStr val = none) :=
  ⟨fun _ => rfl,
   fun didx vidx r rest h => collectPoints_cons_none strptime cellStr toFloat didx vidx r rest h,
   fun rows columns => render_none_iff strptime cellStr toFloat rows columns,
   fun val h1 h2 => parse_datetime_safe_none strptime cellStr val h1 h2⟩

/-- C9 (witness): a single row with an unparseable datetime cell yields
an absent chart, as does an empty row set. -/
theorem C9_witness :
    render_graph_png strptimeNone cellStrId toFloatNone rowsW colsW = none ∧
    render_graph_png strptimeNone cellStrId toFloatNone ([] : List (List Str)) colsW = none :=
  ⟨((C9_chart_drops strptimeNone cellStrId toFloatNone).2.2.1 rowsW colsW).mpr
     (Or.inr (by decide)),
   (C9_chart_drops strptimeNone cellStrId toFloatNone).1 colsW⟩

/-- C10: the legacy wrapper `run_query` is extensionally the secure
executor under the admin table set, and an unauthorized answer through
it never names one of the three schema tables. -/
theorem C10_legacy {Row State : Type} (db : Db Row State) (st : State)
    (query : Str) (maxRows : Nat) :
    run_query db st query maxRows =
      secure_run_query db st query (allowed_tables_for_role adminRole) maxRows ∧
    ∀ t : Str, (run_query db st query maxRows).1 = ExecResult.unauthorized t →
      (t ≠ meterName ∧ t ≠ customerName ∧ t ≠ revenueName) := by
  constructor
  · unfold run_query
    rw [show legacyAllowed = allowed_tables_for_role adminRole from by decide]
  · intro t h
    unfold run_query at h
    have hc := (secure_unauthorized_sound db st query legacyAllowed maxRows t h).2
    refine ⟨?_, ?_, ?_⟩
    all_goals intro he
    all_goals subst he
    all_goals revert hc
    all_goals decide

/-- C10 (witness): a query on an unknown table through the wrapper is
denied with that table, which is none of the schema tables. -/
theorem C10_witness :
    run_query dbUnit () selectFoo_sql 50 =
      secure_run_query dbUnit () selectFoo_sql (allowed_tables_for_role adminRole) 50 ∧
    (run_query dbUnit () selectFoo_sql 50).1 = ExecResult.unauthorized (("foo").data) ∧
    ((("foo").data ≠ meterName) ∧ (("foo").data ≠ customerName) ∧ (("foo").data ≠ revenueName)) :=
  ⟨(C10_legacy dbUnit () selectFoo_sql 50).1, by decide,
   (C10_legacy dbUnit () selectFoo_sql 50).2 (("foo").data) (by decide)⟩

end Gateway
